import Mathlib

/-!
Verification of the cleaning pipeline of `cambridge_carpark_usage.ipynb`.

The notebook loads a CSV of daily car-park usage records for the Grafton
East car park and cleans it in a fixed sequence of steps:

  1. `ge_data['Day'] = pd.Categorical(ge_data['Day'], categories=[Mon..Sun], ordered=True)`
  2. `ge_data['Date'] = pd.to_datetime(ge_data['Date'], dayfirst=True, format="%d/%m/%Y")`
  3. `whitespace_remover(ge_data)` (strips object-typed cell values and column labels)
  4. `ge_data['Up to 1 hr'] = ge_data['Up to 1 hr'].replace({'-': 0, '1,678': 167})`
     then `.astype('int64')`
  5. `ge_data = ge_data.replace('-', 0)` (whole dataframe)
  6. eight further `astype('int64')` casts plus a redundant cast of `Total Exc Sub`
  7. `ge_data['Comments'] = ge_data['Comments'].replace('0', np.nan)`
  8. `ge_data['Total Exc Sub'] = ge_data['Total Exc Sub'].apply(lambda x: 0 if x < 0 else x)`
  9. per-year slices `ge_data.loc[(Date >= 'Y-01-01') & (Date <= 'Y-12-31')]` for Y = 2018..2022.

The embedding models a table as a list of rows with one field per CSV
column; a cell is a string, an integer, a parsed date or null (NaN).
Tables as produced by `read_csv` hold string cells (a column whose every
field is an integer literal is loaded as integer cells, and an empty CSV
field loads as null); the pipeline below is defined on arbitrary cell
tables and each step mirrors the pandas operation cell-wise.  At the
point where `whitespace_remover` runs, every column is homogeneous (all
strings, all integers, all dates, or string/null), so the cell-wise
strip used here agrees with the dtype-guarded column-wise strip of the
source.  Column labels live as structure field names, so the label strip
of `whitespace_remover` has no observable counterpart here.
-/

/-- A single dataframe cell: a string, an int64 value, a parsed calendar
date (from `pd.to_datetime`), or a missing value (NaN / NaT / None). -/
inductive Cell where
  | str (s : String)
  | int (n : Int)
  | date (y m d : Nat)
  | null
deriving DecidableEq, Repr

/-- One row of the Grafton East CSV, one field per (trimmed) column label:
`Date`, `Day`, `Up to 1 hr`, `1 to 2 hrs`, `2 to 3 hrs`, `3 to 4 hrs`,
`4 to 5 hrs`, `5 to 6 hrs`, `6 to <24 hours`, `24 hours +`,
`Total Exc Sub`, `Subscribers`, `Comments`. -/
@[ext]
structure Row where
  date : Cell
  day : Cell
  upTo1hr : Cell
  h1to2 : Cell
  h2to3 : Cell
  h3to4 : Cell
  h4to5 : Cell
  h5to6 : Cell
  h6toLt24 : Cell
  h24plus : Cell
  totalExcSub : Cell
  subscribers : Cell
  comments : Cell
deriving DecidableEq, Repr

/-- The in-memory table `ge_data`. -/
abbrev Table := List Row

/-- The fixed ordered category list passed to `pd.Categorical`
(`categories=['Mon', 'Tue', 'Wed', 'Thu', 'Fri', 'Sat', 'Sun'], ordered=True`). -/
def dayCategories : List String := ["Mon", "Tue", "Wed", "Thu", "Fri", "Sat", "Sun"]

/-- `pd.Categorical(v, categories=dayCategories)` on one cell: a value
inside the category list is kept, any other value becomes NaN. -/
def toCategorical (c : Cell) : Cell :=
  match c with
  | Cell.str s => if s ∈ dayCategories then Cell.str s else Cell.null
  | _ => Cell.null

/-- Digit character value, `none` for a non-digit. -/
def digitVal (c : Char) : Option Nat :=
  if c.isDigit then some (c.toNat - 48) else none

/-- Value of a non-empty all-digit character list, most significant first. -/
def digitsToNat : List Char → Option Nat
  | [] => none
  | cs => cs.foldl (fun acc c => acc.bind fun a => (digitVal c).map fun v => a * 10 + v) (some 0)

/-- Split a character list at every occurrence of the separator. -/
def splitOnChar (sep : Char) : List Char → List (List Char)
  | [] => [[]]
  | c :: cs =>
    if c = sep then [] :: splitOnChar sep cs
    else
      match splitOnChar sep cs with
      | [] => [[c]]
      | f :: rest => (c :: f) :: rest

/-- Gregorian leap-year test, as validated by `strptime`. -/
def isLeap (y : Nat) : Bool :=
  y % 4 = 0 && (y % 100 ≠ 0 || y % 400 = 0)

/-- Days in a month, used by `strptime` to validate `%d`. -/
def daysInMonth (y m : Nat) : Nat :=
  if m = 2 then (if isLeap y then 29 else 28)
  else if m = 4 || m = 6 || m = 9 || m = 11 then 30
  else 31

/-- `pd.to_datetime(s, dayfirst=True, format="%d/%m/%Y")` on one string:
three `/`-separated fields, day first (`%d`: one or two digits), then
month (`%m`: one or two digits), then year (`%Y`: up to four digits);
the day and month must form a valid calendar date or parsing raises
(here: returns `none`).  Result is `(year, month, day)`. -/
def parseFields : List (List Char) → Option (Nat × Nat × Nat)
  | [df, mf, yf] =>
    if df.length = 0 || 2 < df.length then none
    else if mf.length = 0 || 2 < mf.length then none
    else if yf.length = 0 || 4 < yf.length then none
    else
      (digitsToNat df).bind fun d =>
      (digitsToNat mf).bind fun m =>
      (digitsToNat yf).bind fun y =>
      if 1 ≤ m && m ≤ 12 && 1 ≤ d && d ≤ daysInMonth y m then some (y, m, d)
      else none
  | _ => none

def parseDate (s : String) : Option (Nat × Nat × Nat) :=
  parseFields (splitOnChar '/' s.data)

/-- Python `str.strip()`: drop leading and trailing whitespace. -/
def stripString (s : String) : String :=
  String.mk (((s.data.dropWhile Char.isWhitespace).reverse.dropWhile Char.isWhitespace).reverse)

/-- `str.strip()` applied through the `.str` accessor: strings are
trimmed, non-string cells of the column are not strings so the guarded
column-wise strip leaves them alone (see the header note). -/
def stripCell (c : Cell) : Cell :=
  match c with
  | Cell.str s => Cell.str (stripString s)
  | c => c

/-- `ge_data['Up to 1 hr'].replace({'-': 0, '1,678': 167})` on one cell:
exact-match replacement by the Python ints `0` and `167`. -/
def repairUpTo1hr (c : Cell) : Cell :=
  if c = Cell.str "-" then Cell.int 0
  else if c = Cell.str "1,678" then Cell.int 167
  else c

/-- `ge_data.replace('-', 0)` on one cell: exact match only. -/
def dashToZero (c : Cell) : Cell :=
  if c = Cell.str "-" then Cell.int 0 else c

/-- Python `int(s)` on a trimmed token: an optional sign followed by at
least one digit. -/
def parseIntStr (s : String) : Option Int :=
  match s.data with
  | '-' :: rest => (digitsToNat rest).map fun n => -(n : Int)
  | '+' :: rest => (digitsToNat rest).map fun n => (n : Int)
  | cs => (digitsToNat cs).map fun n => (n : Int)

/-- `astype('int64')` on one cell: a string is parsed via `int`,
an int64 value passes through, a NaN or datetime raises (`none`). -/
def coerceCell (c : Cell) : Option Cell :=
  match c with
  | Cell.str s => (parseIntStr s).map Cell.int
  | Cell.int n => some (Cell.int n)
  | _ => none

/-- `ge_data['Comments'].replace('0', np.nan)` on one cell: only the
exact string `"0"` is replaced (the Python int `0` is not equal to the
string `'0'`, so an integer cell survives). -/
def commentsNormalize (c : Cell) : Cell :=
  if c = Cell.str "0" then Cell.null else c

/-- `lambda x: 0 if x < 0 else x` applied to one `Total Exc Sub` cell;
the column is int64 at this point so only integer cells occur. -/
def clipTotal (c : Cell) : Cell :=
  match c with
  | Cell.int n => if n < 0 then Cell.int 0 else Cell.int n
  | c => c

/-- The ten columns cast to `int64` by the notebook (`Up to 1 hr` in its
own cell, the remaining nine in source order afterwards; `Total Exc Sub`
was already int64 after load but is cast again by the source). -/
inductive NumCol where
  | upTo1hr
  | h1to2
  | h2to3
  | h3to4
  | h4to5
  | h5to6
  | h6toLt24
  | h24plus
  | subscribers
  | totalExcSub
deriving DecidableEq, Repr, BEq

/-- Read the cell of a numeric column. -/
def getNum (c : NumCol) (r : Row) : Cell :=
  match c with
  | NumCol.upTo1hr => r.upTo1hr
  | NumCol.h1to2 => r.h1to2
  | NumCol.h2to3 => r.h2to3
  | NumCol.h3to4 => r.h3to4
  | NumCol.h4to5 => r.h4to5
  | NumCol.h5to6 => r.h5to6
  | NumCol.h6toLt24 => r.h6toLt24
  | NumCol.h24plus => r.h24plus
  | NumCol.subscribers => r.subscribers
  | NumCol.totalExcSub => r.totalExcSub

/-- Write the cell of a numeric column. -/
def setNum (c : NumCol) (v : Cell) (r : Row) : Row :=
  match c with
  | NumCol.upTo1hr => { r with upTo1hr := v }
  | NumCol.h1to2 => { r with h1to2 := v }
  | NumCol.h2to3 => { r with h2to3 := v }
  | NumCol.h3to4 => { r with h3to4 := v }
  | NumCol.h4to5 => { r with h4to5 := v }
  | NumCol.h5to6 => { r with h5to6 := v }
  | NumCol.h6toLt24 => { r with h6toLt24 := v }
  | NumCol.h24plus => { r with h24plus := v }
  | NumCol.subscribers => { r with subscribers := v }
  | NumCol.totalExcSub => { r with totalExcSub := v }

/-- Apply a cell transformation to every column of a row (dataframe-wide
operations such as `ge_data.replace('-', 0)` and the value strip). -/
def mapRowCells (f : Cell → Cell) (r : Row) : Row :=
  { date := f r.date, day := f r.day, upTo1hr := f r.upTo1hr, h1to2 := f r.h1to2,
    h2to3 := f r.h2to3, h3to4 := f r.h3to4, h4to5 := f r.h4to5, h5to6 := f r.h5to6,
    h6toLt24 := f r.h6toLt24, h24plus := f r.h24plus, totalExcSub := f r.totalExcSub,
    subscribers := f r.subscribers, comments := f r.comments }

/-- The cleaning statements of the notebook, one constructor per
dataframe-mutating statement. -/
inductive Step where
  | setDayCategorical
  | parseDateColumn
  | stripWhitespace
  | replaceUpTo1hr
  | coerceColumn (c : NumCol)
  | replaceDashGlobal
  | replaceComments
  | clipTotalExcSub
deriving DecidableEq, Repr, BEq

/-- The effect of one cleaning statement on one row; `none` models the
statement raising on that row (`to_datetime` parse failure, `astype`
failure). -/
def rowStep (s : Step) (r : Row) : Option Row :=
  match s with
  | Step.setDayCategorical => some { r with day := toCategorical r.day }
  | Step.parseDateColumn =>
    match r.date with
    | Cell.str s => (parseDate s).map fun ymd => { r with date := Cell.date ymd.1 ymd.2.1 ymd.2.2 }
    | Cell.date y m d => some { r with date := Cell.date y m d }
    | Cell.null => some { r with date := Cell.null }
    | Cell.int _ => none
  | Step.stripWhitespace => some (mapRowCells stripCell r)
  | Step.replaceUpTo1hr => some { r with upTo1hr := repairUpTo1hr r.upTo1hr }
  | Step.coerceColumn c => (coerceCell (getNum c r)).map fun v => setNum c v r
  | Step.replaceDashGlobal => some (mapRowCells dashToZero r)
  | Step.replaceComments => some { r with comments := commentsNormalize r.comments }
  | Step.clipTotalExcSub => some { r with totalExcSub := clipTotal r.totalExcSub }

/-- Apply a fallible row transformation to every row; the statement
raises (`none`) as soon as any row raises. -/
def tableMapM (f : Row → Option Row) : Table → Option Table
  | [] => some []
  | r :: rs => (f r).bind fun r' => (tableMapM f rs).map fun rs' => r' :: rs'

/-- One cleaning statement applied to the whole table. -/
def runStep (s : Step) (t : Table) : Option Table :=
  tableMapM (rowStep s) t

/-- A sequence of cleaning statements applied in order. -/
def runSteps : List Step → Table → Option Table
  | [], t => some t
  | s :: rest, t => (runStep s t).bind (runSteps rest)

/-- The notebook's cleaning statements in source order (cells 9, 10,
11-12, 19 line 1, 19 line 2, 22, 24 lines 1-9, 30, 36). -/
def pipelineSteps : List Step :=
  [Step.setDayCategorical, Step.parseDateColumn, Step.stripWhitespace,
   Step.replaceUpTo1hr, Step.coerceColumn NumCol.upTo1hr,
   Step.replaceDashGlobal,
   Step.coerceColumn NumCol.h1to2, Step.coerceColumn NumCol.h2to3,
   Step.coerceColumn NumCol.h3to4, Step.coerceColumn NumCol.h4to5,
   Step.coerceColumn NumCol.h5to6, Step.coerceColumn NumCol.h6toLt24,
   Step.coerceColumn NumCol.h24plus, Step.coerceColumn NumCol.subscribers,
   Step.coerceColumn NumCol.totalExcSub,
   Step.replaceComments, Step.clipTotalExcSub]

/-- The whole cleaning pipeline, `ge_data` in, cleaned `ge_data` out. -/
def cleanTable (t : Table) : Option Table :=
  runSteps pipelineSteps t

/-- The value-repair portion of the pipeline: the `'-'`/`'1,678'`
replacements followed by the numeric coercions (cells 19, 22, 24). -/
def repairSteps : List Step :=
  [Step.replaceUpTo1hr, Step.coerceColumn NumCol.upTo1hr,
   Step.replaceDashGlobal,
   Step.coerceColumn NumCol.h1to2, Step.coerceColumn NumCol.h2to3,
   Step.coerceColumn NumCol.h3to4, Step.coerceColumn NumCol.h4to5,
   Step.coerceColumn NumCol.h5to6, Step.coerceColumn NumCol.h6toLt24,
   Step.coerceColumn NumCol.h24plus, Step.coerceColumn NumCol.subscribers,
   Step.coerceColumn NumCol.totalExcSub]

/-- The value-repair portion applied on its own. -/
def repairTable (t : Table) : Option Table :=
  runSteps repairSteps t

/-- A sequence of cleaning statements, viewed as acting on one row. -/
def rowRun : List Step → Row → Option Row
  | [], r => some r
  | s :: rest, r => (rowStep s r).bind (rowRun rest)

/-- The whole pipeline acting on one row. -/
def cleanRow (r : Row) : Option Row :=
  rowRun pipelineSteps r

/-- The pipeline statements from the whitespace strip onward (used to
factor proofs about `cleanRow`). -/
def tailSteps : List Step :=
  [Step.stripWhitespace,
   Step.replaceUpTo1hr, Step.coerceColumn NumCol.upTo1hr,
   Step.replaceDashGlobal,
   Step.coerceColumn NumCol.h1to2, Step.coerceColumn NumCol.h2to3,
   Step.coerceColumn NumCol.h3to4, Step.coerceColumn NumCol.h4to5,
   Step.coerceColumn NumCol.h5to6, Step.coerceColumn NumCol.h6toLt24,
   Step.coerceColumn NumCol.h24plus, Step.coerceColumn NumCol.subscribers,
   Step.coerceColumn NumCol.totalExcSub,
   Step.replaceComments, Step.clipTotalExcSub]

/-- The decimal digit character for `n < 10`. -/
def digitChar (n : Nat) : Char :=
  match n with
  | 0 => '0'
  | 1 => '1'
  | 2 => '2'
  | 3 => '3'
  | 4 => '4'
  | 5 => '5'
  | 6 => '6'
  | 7 => '7'
  | 8 => '8'
  | 9 => '9'
  | _ => '0'

/-- Two-digit zero-padded decimal rendering (`n < 100`). -/
def pad2 (n : Nat) : List Char :=
  [digitChar (n / 10), digitChar (n % 10)]

/-- Four-digit zero-padded decimal rendering (`n < 10000`). -/
def pad4 (n : Nat) : List Char :=
  [digitChar (n / 1000), digitChar (n / 100 % 10), digitChar (n / 10 % 10), digitChar (n % 10)]

/-- A well-formed `DD/MM/YYYY` date string, day first. -/
def renderDate (d m y : Nat) : String :=
  String.mk (pad2 d ++ '/' :: (pad2 m ++ '/' :: pad4 y))

/-- Lexicographic order on `(year, month, day)` triples, matching the
order of the underlying timestamps. -/
def tripleLe (a b : Nat × Nat × Nat) : Bool :=
  a.1 < b.1 || (a.1 = b.1 && (a.2.1 < b.2.1 || (a.2.1 = b.2.1 && a.2.2 ≤ b.2.2)))

/-- `ge_data['Date'] >= 'Y-01-01'` on one cell: a parsed date compares
by calendar order; a NaT (or any non-date, which cannot occur after the
pipeline) compares false. -/
def cellGeLower (bound : Nat × Nat × Nat) (c : Cell) : Bool :=
  match c with
  | Cell.date y m d => tripleLe bound (y, m, d)
  | _ => false

/-- `ge_data['Date'] <= 'Y-12-31'` on one cell. -/
def cellLeUpper (bound : Nat × Nat × Nat) (c : Cell) : Bool :=
  match c with
  | Cell.date y m d => tripleLe (y, m, d) bound
  | _ => false

/-- The year slice `ge_data.loc[(ge_data['Date'] >= 'Y-01-01') & (ge_data['Date'] <= 'Y-12-31')]`
(cells 49: `ge2018_data` .. `ge2022_data` are `yearSlice 2018` .. `yearSlice 2022`). -/
def yearSlice (y : Nat) (t : Table) : Table :=
  t.filter fun r => cellGeLower (y, 1, 1) r.date && cellLeUpper (y, 12, 31) r.date

/-- An input cell already denotes the integer `n`: either it is the
int64 value `n` (a column loaded as int64), or it is a string whose
stripped token parses to `n` via Python `int`. -/
def cellDenotes (c : Cell) (n : Int) : Prop :=
  c = Cell.int n ∨ ∃ s, c = Cell.str s ∧ parseIntStr (stripString s) = some n

/-!
## Infrastructure

Every cleaning statement acts row-by-row, so the whole pipeline factors
through the single-row function `cleanRow`; the lemmas below establish
that factoring and the membership behaviour of `tableMapM`.
-/

theorem tableMapM_bind_comm (f g : Row → Option Row) (t : Table) :
    (tableMapM f t).bind (tableMapM g) = tableMapM (fun r => (f r).bind g) t := by
  induction t with
  | nil => simp [tableMapM]
  | cons r rs ih =>
    simp only [tableMapM]
    cases hf : f r with
    | none => simp
    | some r₀ =>
      simp only [Option.some_bind]
      cases hrest : tableMapM f rs with
      | none =>
        rw [← ih, hrest]
        cases hg : g r₀ <;> simp
      | some t₀ =>
        rw [← ih, hrest]
        simp [tableMapM]

theorem runSteps_eq_rowRun (l : List Step) (t : Table) :
    runSteps l t = tableMapM (rowRun l) t := by
  induction l generalizing t with
  | nil =>
    simp only [runSteps, rowRun]
    induction t with
    | nil => rfl
    | cons r rs ih => simp [tableMapM, ← ih]
  | cons s rest ih =>
    simp only [runSteps, runStep]
    calc (tableMapM (rowStep s) t).bind (runSteps rest)
        = (tableMapM (rowStep s) t).bind (tableMapM (rowRun rest)) := by
          cases htm : tableMapM (rowStep s) t <;> simp [ih]
      _ = tableMapM (fun r => (rowStep s r).bind (rowRun rest)) t := tableMapM_bind_comm ..
      _ = tableMapM (rowRun (s :: rest)) t := rfl

theorem cleanTable_eq (t : Table) : cleanTable t = tableMapM cleanRow t :=
  runSteps_eq_rowRun pipelineSteps t

theorem tableMapM_mem_out (f : Row → Option Row) (t t' : Table)
    (h : tableMapM f t = some t') :
    ∀ r' ∈ t', ∃ r ∈ t, f r = some r' := by
  induction t generalizing t' with
  | nil =>
    simp only [tableMapM] at h
    cases h
    intro r' hr'
    cases hr'
  | cons r rs ih =>
    simp only [tableMapM, Option.bind_eq_some, Option.map_eq_some'] at h
    rcases h with ⟨r₀, hf, t₀, hrest, hcons⟩
    cases hcons
    intro r' hr'
    rcases List.mem_cons.mp hr' with h1 | h2
    · exact ⟨r, List.mem_cons_self .., by rw [hf, h1]⟩
    · rcases ih t₀ hrest r' h2 with ⟨r₁, hmem, heq⟩
      exact ⟨r₁, List.mem_cons_of_mem _ hmem, heq⟩

theorem tableMapM_mem_in (f : Row → Option Row) (t t' : Table)
    (h : tableMapM f t = some t') :
    ∀ r ∈ t, ∃ r' ∈ t', f r = some r' := by
  induction t generalizing t' with
  | nil =>
    intro r hr
    cases hr
  | cons r rs ih =>
    simp only [tableMapM, Option.bind_eq_some, Option.map_eq_some'] at h
    rcases h with ⟨r₀, hf, t₀, hrest, hcons⟩
    cases hcons
    intro r₁ hr₁
    rcases List.mem_cons.mp hr₁ with h1 | h2
    · exact ⟨r₀, List.mem_cons_self .., by rw [h1, hf]⟩
    · rcases ih t₀ hrest r₁ h2 with ⟨r', hmem, heq⟩
      exact ⟨r', List.mem_cons_of_mem _ hmem, heq⟩

theorem pipeline_decomp :
    pipelineSteps = Step.setDayCategorical :: Step.parseDateColumn :: tailSteps := rfl

theorem coerceCell_isInt (c v : Cell) (h : coerceCell c = some v) : ∃ n : Int, v = Cell.int n := by
  cases c with
  | str s =>
    simp only [coerceCell, Option.map_eq_some'] at h
    rcases h with ⟨n, _, rfl⟩
    exact ⟨n, rfl⟩
  | int n =>
    simp only [coerceCell, Option.some.injEq] at h
    exact ⟨n, h.symm⟩
  | date y m d => cases h
  | null => cases h

theorem toCategorical_stable (c : Cell) :
    dashToZero (stripCell (toCategorical c)) = toCategorical c := by
  cases c with
  | str s =>
    simp only [toCategorical]
    by_cases hmem : s ∈ dayCategories
    · simp only [if_pos hmem]
      fin_cases hmem <;> decide
    · simp [if_neg hmem, stripCell, dashToZero]
  | int n => rfl
  | date y m d => rfl
  | null => rfl

/-- Characterization of the pipeline tail (strip, repairs, coercions,
comments replacement, clip) on one row: each output field in terms of
the corresponding input field. -/
theorem rowRunTail_char (r1 r' : Row) (h : rowRun tailSteps r1 = some r') :
    r'.date = dashToZero (stripCell r1.date) ∧
    r'.day = dashToZero (stripCell r1.day) ∧
    coerceCell (repairUpTo1hr (stripCell r1.upTo1hr)) = some r'.upTo1hr ∧
    coerceCell (dashToZero (stripCell r1.h1to2)) = some r'.h1to2 ∧
    coerceCell (dashToZero (stripCell r1.h2to3)) = some r'.h2to3 ∧
    coerceCell (dashToZero (stripCell r1.h3to4)) = some r'.h3to4 ∧
    coerceCell (dashToZero (stripCell r1.h4to5)) = some r'.h4to5 ∧
    coerceCell (dashToZero (stripCell r1.h5to6)) = some r'.h5to6 ∧
    coerceCell (dashToZero (stripCell r1.h6toLt24)) = some r'.h6toLt24 ∧
    coerceCell (dashToZero (stripCell r1.h24plus)) = some r'.h24plus ∧
    coerceCell (dashToZero (stripCell r1.subscribers)) = some r'.subscribers ∧
    (∃ v, coerceCell (dashToZero (stripCell r1.totalExcSub)) = some v ∧
      r'.totalExcSub = clipTotal v) ∧
    r'.comments = commentsNormalize (dashToZero (stripCell r1.comments)) := by
  simp only [tailSteps, rowRun, rowStep, Option.some_bind, mapRowCells, getNum, setNum] at h
  cases hv1 : coerceCell (repairUpTo1hr (stripCell r1.upTo1hr)) with
  | none => rw [hv1] at h; simp at h
  | some v1 =>
  rw [hv1] at h
  simp only [Option.map_some', Option.some_bind] at h
  cases hv2 : coerceCell (dashToZero (stripCell r1.h1to2)) with
  | none => rw [hv2] at h; simp at h
  | some v2 =>
  rw [hv2] at h
  simp only [Option.map_some', Option.some_bind] at h
  cases hv3 : coerceCell (dashToZero (stripCell r1.h2to3)) with
  | none => rw [hv3] at h; simp at h
  | some v3 =>
  rw [hv3] at h
  simp only [Option.map_some', Option.some_bind] at h
  cases hv4 : coerceCell (dashToZero (stripCell r1.h3to4)) with
  | none => rw [hv4] at h; simp at h
  | some v4 =>
  rw [hv4] at h
  simp only [Option.map_some', Option.some_bind] at h
  cases hv5 : coerceCell (dashToZero (stripCell r1.h4to5)) with
  | none => rw [hv5] at h; simp at h
  | some v5 =>
  rw [hv5] at h
  simp only [Option.map_some', Option.some_bind] at h
  cases hv6 : coerceCell (dashToZero (stripCell r1.h5to6)) with
  | none => rw [hv6] at h; simp at h
  | some v6 =>
  rw [hv6] at h
  simp only [Option.map_some', Option.some_bind] at h
  cases hv7 : coerceCell (dashToZero (stripCell r1.h6toLt24)) with
  | none => rw [hv7] at h; simp at h
  | some v7 =>
  rw [hv7] at h
  simp only [Option.map_some', Option.some_bind] at h
  cases hv8 : coerceCell (dashToZero (stripCell r1.h24plus)) with
  | none => rw [hv8] at h; simp at h
  | some v8 =>
  rw [hv8] at h
  simp only [Option.map_some', Option.some_bind] at h
  cases hv9 : coerceCell (dashToZero (stripCell r1.subscribers)) with
  | none => rw [hv9] at h; simp at h
  | some v9 =>
  rw [hv9] at h
  simp only [Option.map_some', Option.some_bind] at h
  cases hv10 : coerceCell (dashToZero (stripCell r1.totalExcSub)) with
  | none => rw [hv10] at h; simp at h
  | some v10 =>
  rw [hv10] at h
  simp only [Option.map_some', Option.some_bind] at h
  rw [Option.some.injEq] at h
  subst h
  obtain ⟨n1, rfl⟩ := coerceCell_isInt _ _ hv1
  exact ⟨rfl, rfl, rfl, rfl, rfl, rfl, rfl, rfl, rfl, rfl, rfl, ⟨v10, rfl, rfl⟩, rfl⟩

/-- Characterization of the whole cleaning pipeline on one row. -/
theorem cleanRow_char (r r' : Row) (h : cleanRow r = some r') :
    ((∃ s y m d, r.date = Cell.str s ∧ parseDate s = some (y, m, d) ∧ r'.date = Cell.date y m d) ∨
      (∃ y m d, r.date = Cell.date y m d ∧ r'.date = Cell.date y m d) ∨
      (r.date = Cell.null ∧ r'.date = Cell.null)) ∧
    r'.day = toCategorical r.day ∧
    coerceCell (repairUpTo1hr (stripCell r.upTo1hr)) = some r'.upTo1hr ∧
    coerceCell (dashToZero (stripCell r.h1to2)) = some r'.h1to2 ∧
    coerceCell (dashToZero (stripCell r.h2to3)) = some r'.h2to3 ∧
    coerceCell (dashToZero (stripCell r.h3to4)) = some r'.h3to4 ∧
    coerceCell (dashToZero (stripCell r.h4to5)) = some r'.h4to5 ∧
    coerceCell (dashToZero (stripCell r.h5to6)) = some r'.h5to6 ∧
    coerceCell (dashToZero (stripCell r.h6toLt24)) = some r'.h6toLt24 ∧
    coerceCell (dashToZero (stripCell r.h24plus)) = some r'.h24plus ∧
    coerceCell (dashToZero (stripCell r.subscribers)) = some r'.subscribers ∧
    (∃ v, coerceCell (dashToZero (stripCell r.totalExcSub)) = some v ∧
      r'.totalExcSub = clipTotal v) ∧
    r'.comments = commentsNormalize (dashToZero (stripCell r.comments)) := by
  have h1 : (rowStep Step.parseDateColumn { r with day := toCategorical r.day }).bind
      (rowRun tailSteps) = some r' := h
  clear h
  simp only [rowStep] at h1
  split at h1
  case h_1 s heq =>
    cases hp : parseDate s with
    | none => rw [hp] at h1; simp at h1
    | some ymd =>
      obtain ⟨y, m, d⟩ := ymd
      rw [hp] at h1
      simp only [Option.map_some', Option.some_bind] at h1
      have hc := rowRunTail_char _ _ h1
      refine ⟨Or.inl ⟨s, y, m, d, heq, hp, hc.1.trans rfl⟩,
        hc.2.1.trans (toCategorical_stable r.day), hc.2.2.1, hc.2.2.2.1, hc.2.2.2.2.1,
      hc.2.2.2.2.2.1, hc.2.2.2.2.2.2.1, hc.2.2.2.2.2.2.2.1, hc.2.2.2.2.2.2.2.2.1,
      hc.2.2.2.2.2.2.2.2.2.1, hc.2.2.2.2.2.2.2.2.2.2.1, hc.2.2.2.2.2.2.2.2.2.2.2.1,
      hc.2.2.2.2.2.2.2.2.2.2.2.2⟩
  case h_2 y m d heq =>
    simp only [Option.some_bind] at h1
    have hc := rowRunTail_char _ _ h1
    refine ⟨Or.inr (Or.inl ⟨y, m, d, heq, hc.1.trans rfl⟩),
      hc.2.1.trans (toCategorical_stable r.day), hc.2.2.1, hc.2.2.2.1, hc.2.2.2.2.1,
      hc.2.2.2.2.2.1, hc.2.2.2.2.2.2.1, hc.2.2.2.2.2.2.2.1, hc.2.2.2.2.2.2.2.2.1,
      hc.2.2.2.2.2.2.2.2.2.1, hc.2.2.2.2.2.2.2.2.2.2.1, hc.2.2.2.2.2.2.2.2.2.2.2.1,
      hc.2.2.2.2.2.2.2.2.2.2.2.2⟩
  case h_3 heq =>
    simp only [Option.some_bind] at h1
    have hc := rowRunTail_char _ _ h1
    refine ⟨Or.inr (Or.inr ⟨heq, hc.1.trans rfl⟩),
      hc.2.1.trans (toCategorical_stable r.day), hc.2.2.1, hc.2.2.2.1, hc.2.2.2.2.1,
      hc.2.2.2.2.2.1, hc.2.2.2.2.2.2.1, hc.2.2.2.2.2.2.2.1, hc.2.2.2.2.2.2.2.2.1,
      hc.2.2.2.2.2.2.2.2.2.1, hc.2.2.2.2.2.2.2.2.2.2.1, hc.2.2.2.2.2.2.2.2.2.2.2.1,
      hc.2.2.2.2.2.2.2.2.2.2.2.2⟩
  case h_4 n heq =>
    simp at h1

theorem cleanTable_rows (t t' : Table) (h : cleanTable t = some t') :
    ∀ r' ∈ t', ∃ r ∈ t, cleanRow r = some r' := by
  rw [cleanTable_eq] at h
  exact tableMapM_mem_out _ _ _ h

/-- C1: after the anomaly-correction step (the final pipeline step), the
`Total Exc Sub` cell of every row holds an integer `n ≥ 0`; the clip
maps `-1` (and every negative value) to `0` and keeps every non-negative
value unchanged. -/
theorem C1_total_exc_sub_nonneg (t t' : Table) (h : cleanTable t = some t') :
    (∀ r' ∈ t', ∃ n : Int, 0 ≤ n ∧ r'.totalExcSub = Cell.int n) ∧
    clipTotal (Cell.int (-1)) = Cell.int 0 ∧
    (∀ n : Int, n < 0 → clipTotal (Cell.int n) = Cell.int 0) ∧
    (∀ n : Int, 0 ≤ n → clipTotal (Cell.int n) = Cell.int n) := by
  refine ⟨?_, by decide, ?_, ?_⟩
  · intro r' hr'
    obtain ⟨r, -, hcr⟩ := cleanTable_rows t t' h r' hr'
    obtain ⟨-, -, -, -, -, -, -, -, -, -, -, ⟨v, hv, htot⟩, -⟩ := cleanRow_char _ _ hcr
    obtain ⟨n, rfl⟩ := coerceCell_isInt _ _ hv
    rcases lt_or_ge n 0 with hn | hn
    · exact ⟨0, le_refl 0, by rw [htot]; simp [clipTotal, if_pos hn]⟩
    · exact ⟨n, hn, by rw [htot]; simp [clipTotal, if_neg (not_lt.mpr hn)]⟩
  · intro n hn
    simp [clipTotal, if_pos hn]
  · intro n hn
    simp [clipTotal, if_neg (not_lt.mpr hn)]

/-- C1 witness: a concrete run with a raw `-1` total, floored to `0`. -/
theorem C1_witness :
    cleanTable [Row.mk (Cell.str "31/12/2022") (Cell.str "Sat") (Cell.str "5") (Cell.str "4")
        (Cell.str "3") (Cell.str "2") (Cell.str "1") (Cell.str "0") (Cell.str "0") (Cell.str "0")
        (Cell.int (-1)) (Cell.str "7") (Cell.str "0")] =
      some [Row.mk (Cell.date 2022 12 31) (Cell.str "Sat") (Cell.int 5) (Cell.int 4)
        (Cell.int 3) (Cell.int 2) (Cell.int 1) (Cell.int 0) (Cell.int 0) (Cell.int 0)
        (Cell.int 0) (Cell.int 7) Cell.null] ∧
    (∀ r' ∈ [Row.mk (Cell.date 2022 12 31) (Cell.str "Sat") (Cell.int 5) (Cell.int 4)
        (Cell.int 3) (Cell.int 2) (Cell.int 1) (Cell.int 0) (Cell.int 0) (Cell.int 0)
        (Cell.int 0) (Cell.int 7) Cell.null],
      ∃ n : Int, 0 ≤ n ∧ r'.totalExcSub = Cell.int n) := by
  have hclean : cleanTable [Row.mk (Cell.str "31/12/2022") (Cell.str "Sat") (Cell.str "5")
      (Cell.str "4") (Cell.str "3") (Cell.str "2") (Cell.str "1") (Cell.str "0") (Cell.str "0")
      (Cell.str "0") (Cell.int (-1)) (Cell.str "7") (Cell.str "0")] =
      some [Row.mk (Cell.date 2022 12 31) (Cell.str "Sat") (Cell.int 5) (Cell.int 4)
        (Cell.int 3) (Cell.int 2) (Cell.int 1) (Cell.int 0) (Cell.int 0) (Cell.int 0)
        (Cell.int 0) (Cell.int 7) Cell.null] := by decide
  exact ⟨hclean, (C1_total_exc_sub_nonneg _ _ hclean).1⟩

theorem commentsNormalize_eq (c : Cell) (hc : c ≠ Cell.str "0") : commentsNormalize c = c := by
  simp [commentsNormalize, hc]

theorem commentsNormalize_ne_zero (c : Cell) : commentsNormalize c ≠ Cell.str "0" := by
  by_cases hc : c = Cell.str "0" <;> simp [commentsNormalize, hc]

/-- C2 counterexample: a Comments cell holding the sentinel `-` is not
preserved verbatim by the cleaning pipeline: the global `'-' -> 0`
replacement (which runs on every column, Comments included) turns it
into the integer `0`, so after cleaning a Comments cell can hold a zero
token and differs from the raw value. -/
theorem C2_counterexample :
    cleanTable [Row.mk (Cell.str "01/04/2015") (Cell.str "Wed") (Cell.str "1") (Cell.str "1")
        (Cell.str "1") (Cell.str "1") (Cell.str "1") (Cell.str "1") (Cell.str "1") (Cell.str "1")
        (Cell.str "8") (Cell.str "2") (Cell.str "-")] =
      some [Row.mk (Cell.date 2015 4 1) (Cell.str "Wed") (Cell.int 1) (Cell.int 1)
        (Cell.int 1) (Cell.int 1) (Cell.int 1) (Cell.int 1) (Cell.int 1) (Cell.int 1)
        (Cell.int 8) (Cell.int 2) (Cell.int 0)] ∧
    Cell.int 0 ≠ Cell.str "-" ∧ Cell.int 0 ≠ Cell.null :=
  ⟨by decide, by decide, by decide⟩

/-- C2 (amended): the comments-normalization step itself replaces exactly
the cells equal to the string `"0"` with null and leaves every other
value unchanged, and after the full pipeline no Comments cell holds the
string `"0"`; but the full pipeline does not preserve every other
Comments value verbatim: each output Comments cell is the image of its
input under strip, then the global `'-' -> 0` replacement, then the
normalization. -/
theorem C2_comments_normalization (t t' : Table) (c : Cell) (h : cleanTable t = some t')
    (hc : c ≠ Cell.str "0") :
    commentsNormalize (Cell.str "0") = Cell.null ∧
    commentsNormalize c = c ∧
    (∀ r' ∈ t', r'.comments ≠ Cell.str "0") ∧
    (∀ r' ∈ t', ∃ r ∈ t, r'.comments = commentsNormalize (dashToZero (stripCell r.comments))) := by
  refine ⟨by decide, commentsNormalize_eq c hc, ?_, ?_⟩
  · intro r' hr'
    obtain ⟨r, -, hcr⟩ := cleanTable_rows t t' h r' hr'
    obtain ⟨-, -, -, -, -, -, -, -, -, -, -, -, hcm⟩ := cleanRow_char _ _ hcr
    rw [hcm]
    exact commentsNormalize_ne_zero _
  · intro r' hr'
    obtain ⟨r, hrt, hcr⟩ := cleanTable_rows t t' h r' hr'
    obtain ⟨-, -, -, -, -, -, -, -, -, -, -, -, hcm⟩ := cleanRow_char _ _ hcr
    exact ⟨r, hrt, hcm⟩

/-- C2 witness: a concrete run of the amended statement. -/
theorem C2_witness :
    Cell.str "note" ≠ Cell.str "0" ∧
    commentsNormalize (Cell.str "0") = Cell.null ∧
    commentsNormalize (Cell.str "note") = Cell.str "note" := by
  have hclean : cleanTable [Row.mk (Cell.str "05/04/2015") (Cell.str "Sun") (Cell.str "1")
      (Cell.str "1") (Cell.str "1") (Cell.str "1") (Cell.str "1") (Cell.str "1") (Cell.str "1")
      (Cell.str "1") (Cell.str "8") (Cell.str "2") (Cell.str "note")] =
      some [Row.mk (Cell.date 2015 4 5) (Cell.str "Sun") (Cell.int 1) (Cell.int 1)
        (Cell.int 1) (Cell.int 1) (Cell.int 1) (Cell.int 1) (Cell.int 1) (Cell.int 1)
        (Cell.int 8) (Cell.int 2) (Cell.str "note")] := by decide
  have hmain := C2_comments_normalization _ _ (Cell.str "note") hclean (by decide)
  exact ⟨by decide, hmain.1, hmain.2.1⟩

theorem dash_strip_neg (x : Cell) (n : Int) (hn : n < 0)
    (h : coerceCell (dashToZero (stripCell x)) = some (Cell.int n)) :
    cellDenotes x n := by
  cases x with
  | str s =>
    by_cases hdash : stripString s = "-"
    · simp only [stripCell, dashToZero, hdash] at h
      simp [coerceCell, Cell.int.injEq] at h
      omega
    · simp only [stripCell, dashToZero, if_neg (fun hq => hdash (Cell.str.inj hq))] at h
      simp only [coerceCell, Option.map_eq_some'] at h
      obtain ⟨a, ha, hai⟩ := h
      exact Or.inr ⟨s, rfl, by rw [ha, Cell.int.inj hai]⟩
  | int k =>
    simp only [stripCell, dashToZero] at h
    simp [coerceCell, Cell.int.injEq] at h
    exact Or.inl (by rw [h])
  | date y m d => simp [stripCell, dashToZero, coerceCell] at h
  | null => simp [stripCell, dashToZero, coerceCell] at h

theorem repair_strip_neg (x : Cell) (n : Int) (hn : n < 0)
    (h : coerceCell (repairUpTo1hr (stripCell x)) = some (Cell.int n)) :
    cellDenotes x n := by
  cases x with
  | str s =>
    by_cases hdash : stripString s = "-"
    · simp only [stripCell, repairUpTo1hr, hdash] at h
      simp [coerceCell, Cell.int.injEq] at h
      omega
    · by_cases htypo : stripString s = "1,678"
      · simp only [stripCell, repairUpTo1hr, htypo] at h
        simp [coerceCell, Cell.int.injEq] at h
        omega
      · simp only [stripCell, repairUpTo1hr, if_neg (fun hq => hdash (Cell.str.inj hq)),
          if_neg (fun hq => htypo (Cell.str.inj hq))] at h
        simp only [coerceCell, Option.map_eq_some'] at h
        obtain ⟨a, ha, hai⟩ := h
        exact Or.inr ⟨s, rfl, by rw [ha, Cell.int.inj hai]⟩
  | int k =>
    simp only [stripCell, repairUpTo1hr] at h
    simp [coerceCell, Cell.int.injEq] at h
    exact Or.inl (by rw [h])
  | date y m d => simp [stripCell, repairUpTo1hr, coerceCell] at h
  | null => simp [stripCell, repairUpTo1hr, coerceCell] at h

/-- C3 counterexample: the pipeline accepts a table whose `Up to 1 hr`
token is `-5` without failing, and the cleaned cell then holds the
negative integer `-5`: the cleaned numeric columns are not guaranteed
non-negative. -/
theorem C3_counterexample :
    cleanTable [Row.mk (Cell.str "02/04/2015") (Cell.str "Thu") (Cell.str "-5") (Cell.str "0")
        (Cell.str "0") (Cell.str "0") (Cell.str "0") (Cell.str "0") (Cell.str "0") (Cell.str "0")
        (Cell.str "3") (Cell.str "2") (Cell.str "ok")] =
      some [Row.mk (Cell.date 2015 4 2) (Cell.str "Thu") (Cell.int (-5)) (Cell.int 0)
        (Cell.int 0) (Cell.int 0) (Cell.int 0) (Cell.int 0) (Cell.int 0) (Cell.int 0)
        (Cell.int 3) (Cell.int 2) (Cell.str "ok")] ∧
    (-5 : Int) < 0 :=
  ⟨by decide, by decide⟩

/-- C3 (amended): after cleaning, each of the coerced numeric columns
holds an integer; `total_excluding_subscribers` is non-negative; any
other numeric column holds a negative value `n` only when the
corresponding input cell already denoted `n` (the pipeline's own
replacements introduce only the non-negative values `0` and `167`). -/
theorem C3_numeric_columns (t t' : Table) (h : cleanTable t = some t') :
    (∀ r' ∈ t', ∀ c : NumCol, ∃ n : Int, getNum c r' = Cell.int n) ∧
    (∀ r' ∈ t', ∃ n : Int, 0 ≤ n ∧ r'.totalExcSub = Cell.int n) ∧
    (∀ r' ∈ t', ∀ c : NumCol, c ≠ NumCol.totalExcSub → ∀ n : Int, n < 0 →
      getNum c r' = Cell.int n → ∃ r ∈ t, cellDenotes (getNum c r) n) := by
  refine ⟨?_, ?_, ?_⟩
  · intro r' hr' c
    obtain ⟨r, -, hcr⟩ := cleanTable_rows t t' h r' hr'
    obtain ⟨-, -, hup, h12, h23, h34, h45, h56, h624, h24p, hsub, ⟨v, hv, htot⟩, -⟩ :=
      cleanRow_char _ _ hcr
    cases c with
    | upTo1hr => exact coerceCell_isInt _ _ hup
    | h1to2 => exact coerceCell_isInt _ _ h12
    | h2to3 => exact coerceCell_isInt _ _ h23
    | h3to4 => exact coerceCell_isInt _ _ h34
    | h4to5 => exact coerceCell_isInt _ _ h45
    | h5to6 => exact coerceCell_isInt _ _ h56
    | h6toLt24 => exact coerceCell_isInt _ _ h624
    | h24plus => exact coerceCell_isInt _ _ h24p
    | subscribers => exact coerceCell_isInt _ _ hsub
    | totalExcSub =>
      obtain ⟨k, rfl⟩ := coerceCell_isInt _ _ hv
      rcases lt_or_ge k 0 with hk | hk
      · refine ⟨0, ?_⟩
        show r'.totalExcSub = Cell.int 0
        rw [htot]
        simp [clipTotal, if_pos hk]
      · refine ⟨k, ?_⟩
        show r'.totalExcSub = Cell.int k
        rw [htot]
        simp [clipTotal, if_neg (not_lt.mpr hk)]
  · intro r' hr'
    obtain ⟨r, -, hcr⟩ := cleanTable_rows t t' h r' hr'
    obtain ⟨-, -, -, -, -, -, -, -, -, -, -, ⟨v, hv, htot⟩, -⟩ := cleanRow_char _ _ hcr
    obtain ⟨k, rfl⟩ := coerceCell_isInt _ _ hv
    rcases lt_or_ge k 0 with hk | hk
    · exact ⟨0, le_refl 0, by rw [htot]; simp [clipTotal, if_pos hk]⟩
    · exact ⟨k, hk, by rw [htot]; simp [clipTotal, if_neg (not_lt.mpr hk)]⟩
  · intro r' hr' c hc n hn hcell
    obtain ⟨r, hrt, hcr⟩ := cleanTable_rows t t' h r' hr'
    obtain ⟨-, -, hup, h12, h23, h34, h45, h56, h624, h24p, hsub, -, -⟩ :=
      cleanRow_char _ _ hcr
    cases c with
    | upTo1hr =>
      simp only [getNum] at hcell
      rw [hcell] at hup
      exact ⟨r, hrt, repair_strip_neg _ _ hn hup⟩
    | h1to2 =>
      simp only [getNum] at hcell
      rw [hcell] at h12
      exact ⟨r, hrt, dash_strip_neg _ _ hn h12⟩
    | h2to3 =>
      simp only [getNum] at hcell
      rw [hcell] at h23
      exact ⟨r, hrt, dash_strip_neg _ _ hn h23⟩
    | h3to4 =>
      simp only [getNum] at hcell
      rw [hcell] at h34
      exact ⟨r, hrt, dash_strip_neg _ _ hn h34⟩
    | h4to5 =>
      simp only [getNum] at hcell
      rw [hcell] at h45
      exact ⟨r, hrt, dash_strip_neg _ _ hn h45⟩
    | h5to6 =>
      simp only [getNum] at hcell
      rw [hcell] at h56
      exact ⟨r, hrt, dash_strip_neg _ _ hn h56⟩
    | h6toLt24 =>
      simp only [getNum] at hcell
      rw [hcell] at h624
      exact ⟨r, hrt, dash_strip_neg _ _ hn h624⟩
    | h24plus =>
      simp only [getNum] at hcell
      rw [hcell] at h24p
      exact ⟨r, hrt, dash_strip_neg _ _ hn h24p⟩
    | subscribers =>
      simp only [getNum] at hcell
      rw [hcell] at hsub
      exact ⟨r, hrt, dash_strip_neg _ _ hn hsub⟩
    | totalExcSub => exact absurd rfl hc

/-- C3 witness: the amended statement run on the concrete table whose
`Up to 1 hr` token is the negative literal `-5`. -/
theorem C3_witness :
    cleanTable [Row.mk (Cell.str "03/04/2015") (Cell.str "Fri") (Cell.str "-5") (Cell.str "0")
        (Cell.str "0") (Cell.str "0") (Cell.str "0") (Cell.str "0") (Cell.str "0") (Cell.str "0")
        (Cell.str "3") (Cell.str "2") (Cell.str "ok")] =
      some [Row.mk (Cell.date 2015 4 3) (Cell.str "Fri") (Cell.int (-5)) (Cell.int 0)
        (Cell.int 0) (Cell.int 0) (Cell.int 0) (Cell.int 0) (Cell.int 0) (Cell.int 0)
        (Cell.int 3) (Cell.int 2) (Cell.str "ok")] ∧
    (∀ r' ∈ [Row.mk (Cell.date 2015 4 3) (Cell.str "Fri") (Cell.int (-5)) (Cell.int 0)
        (Cell.int 0) (Cell.int 0) (Cell.int 0) (Cell.int 0) (Cell.int 0) (Cell.int 0)
        (Cell.int 3) (Cell.int 2) (Cell.str "ok")],
      ∃ n : Int, 0 ≤ n ∧ r'.totalExcSub = Cell.int n) := by
  have hclean : cleanTable [Row.mk (Cell.str "03/04/2015") (Cell.str "Fri") (Cell.str "-5")
      (Cell.str "0") (Cell.str "0") (Cell.str "0") (Cell.str "0") (Cell.str "0") (Cell.str "0")
      (Cell.str "0") (Cell.str "3") (Cell.str "2") (Cell.str "ok")] =
      some [Row.mk (Cell.date 2015 4 3) (Cell.str "Fri") (Cell.int (-5)) (Cell.int 0)
        (Cell.int 0) (Cell.int 0) (Cell.int 0) (Cell.int 0) (Cell.int 0) (Cell.int 0)
        (Cell.int 3) (Cell.int 2) (Cell.str "ok")] := by decide
  exact ⟨hclean, (C3_numeric_columns _ _ hclean).2.1⟩

/-- C4 counterexample: in the source order, the coercion of `Up to 1 hr`
to `int64` (cell 19, second line) runs before the dataframe-wide
`replace('-', 0)` (cell 22), so the global replacement does not precede
every numeric coercion. -/
theorem C4_counterexample :
    pipelineSteps.indexOf (Step.coerceColumn NumCol.upTo1hr) <
      pipelineSteps.indexOf Step.replaceDashGlobal ∧
    Step.coerceColumn NumCol.upTo1hr ∈ pipelineSteps ∧
    Step.replaceDashGlobal ∈ pipelineSteps :=
  ⟨by decide, by simp [pipelineSteps], by simp [pipelineSteps]⟩

/-- C4 (amended): the global `'-' -> 0` replacement acts on every column
of every row; it precedes the coercion of each numeric column except
`Up to 1 hr`, which is coerced earlier — but only after the column-local
replacement of `'-'` by `0`, so no column is cast to integer while it
may still contain an unreplaced `-` token. -/
theorem C4_dash_replacement_order (c : NumCol) (hc : c ≠ NumCol.upTo1hr) :
    (∀ r : Row, rowStep Step.replaceDashGlobal r = some (mapRowCells dashToZero r)) ∧
    pipelineSteps.indexOf Step.replaceDashGlobal <
      pipelineSteps.indexOf (Step.coerceColumn c) ∧
    pipelineSteps.indexOf Step.replaceUpTo1hr <
      pipelineSteps.indexOf (Step.coerceColumn NumCol.upTo1hr) ∧
    repairUpTo1hr (Cell.str "-") = Cell.int 0 := by
  refine ⟨fun r => rfl, ?_, by decide, by decide⟩
  cases c with
  | upTo1hr => exact absurd rfl hc
  | h1to2 => decide
  | h2to3 => decide
  | h3to4 => decide
  | h4to5 => decide
  | h5to6 => decide
  | h6toLt24 => decide
  | h24plus => decide
  | subscribers => decide
  | totalExcSub => decide

/-- C4 witness: the amended ordering instantiated at the `1 to 2 hrs`
column. -/
theorem C4_witness :
    NumCol.h1to2 ≠ NumCol.upTo1hr ∧
    pipelineSteps.indexOf Step.replaceDashGlobal <
      pipelineSteps.indexOf (Step.coerceColumn NumCol.h1to2) :=
  ⟨by decide, (C4_dash_replacement_order NumCol.h1to2 (by decide)).2.1⟩

theorem digitChar_digit (n : Nat) (h : n < 10) : digitVal (digitChar n) = some n := by
  interval_cases n <;> decide

theorem digitChar_ne_slash (n : Nat) : digitChar n ≠ '/' := by
  unfold digitChar
  split <;> decide

theorem splitOnChar_no_sep (sep : Char) (a : List Char) (h : ∀ c ∈ a, c ≠ sep) :
    splitOnChar sep a = [a] := by
  induction a with
  | nil => rfl
  | cons c cs ih =>
    simp only [splitOnChar]
    rw [if_neg (h c (List.mem_cons_self ..)), ih (fun x hx => h x (List.mem_cons_of_mem _ hx))]

theorem splitOnChar_append (sep : Char) (a b : List Char) (h : ∀ c ∈ a, c ≠ sep) :
    splitOnChar sep (a ++ sep :: b) = a :: splitOnChar sep b := by
  induction a with
  | nil => simp [splitOnChar]
  | cons c cs ih =>
    simp only [List.cons_append, splitOnChar, List.append_eq]
    rw [if_neg (h c (List.mem_cons_self ..)), ih (fun x hx => h x (List.mem_cons_of_mem _ hx))]

theorem digitsToNat_two (c1 c2 : Char) (v1 v2 : Nat)
    (h1 : digitVal c1 = some v1) (h2 : digitVal c2 = some v2) :
    digitsToNat [c1, c2] = some (v1 * 10 + v2) := by
  simp [digitsToNat, h1, h2]

theorem digitsToNat_four (c1 c2 c3 c4 : Char) (v1 v2 v3 v4 : Nat)
    (h1 : digitVal c1 = some v1) (h2 : digitVal c2 = some v2)
    (h3 : digitVal c3 = some v3) (h4 : digitVal c4 = some v4) :
    digitsToNat [c1, c2, c3, c4] = some (((v1 * 10 + v2) * 10 + v3) * 10 + v4) := by
  simp [digitsToNat, h1, h2, h3, h4]

theorem pad2_spec (d : Nat) (h : d < 100) :
    (∀ c ∈ pad2 d, c ≠ '/') ∧ (pad2 d).length = 2 ∧ digitsToNat (pad2 d) = some d := by
  refine ⟨?_, rfl, ?_⟩
  · intro c hc
    simp only [pad2, List.mem_cons, List.not_mem_nil, or_false] at hc
    rcases hc with rfl | rfl <;> exact digitChar_ne_slash _
  · rw [pad2, digitsToNat_two _ _ _ _ (digitChar_digit _ (by omega))
      (digitChar_digit _ (by omega))]
    congr 1
    omega

theorem pad4_spec (y : Nat) (h : y < 10000) :
    (∀ c ∈ pad4 y, c ≠ '/') ∧ (pad4 y).length = 4 ∧ digitsToNat (pad4 y) = some y := by
  refine ⟨?_, rfl, ?_⟩
  · intro c hc
    simp only [pad4, List.mem_cons, List.not_mem_nil, or_false] at hc
    rcases hc with rfl | rfl | rfl | rfl <;> exact digitChar_ne_slash _
  · rw [pad4, digitsToNat_four _ _ _ _ _ _ _ _ (digitChar_digit _ (by omega))
      (digitChar_digit _ (by omega)) (digitChar_digit _ (by omega))
      (digitChar_digit _ (by omega))]
    congr 1
    omega

theorem daysInMonth_le31 (y m : Nat) : daysInMonth y m ≤ 31 := by
  unfold daysInMonth
  split_ifs <;> omega

theorem parseDate_renderDate (d m y : Nat) (hm1 : 1 ≤ m) (hm2 : m ≤ 12) (hd1 : 1 ≤ d)
    (hd2 : d ≤ daysInMonth y m) (hy : y ≤ 9999) :
    parseDate (renderDate d m y) = some (y, m, d) := by
  have hd100 : d < 100 := lt_of_le_of_lt hd2 (lt_of_le_of_lt (daysInMonth_le31 y m) (by omega))
  have hm100 : m < 100 := by omega
  have hy4 : y < 10000 := by omega
  obtain ⟨hdns, hdlen, hdval⟩ := pad2_spec d hd100
  obtain ⟨hmns, hmlen, hmval⟩ := pad2_spec m hm100
  obtain ⟨hyns, hylen, hyval⟩ := pad4_spec y hy4
  rw [parseDate, renderDate]
  rw [show (String.mk (pad2 d ++ '/' :: (pad2 m ++ '/' :: pad4 y))).data
        = pad2 d ++ '/' :: (pad2 m ++ '/' :: pad4 y) from rfl]
  rw [splitOnChar_append _ _ _ hdns, splitOnChar_append _ _ _ hmns,
    splitOnChar_no_sep _ _ hyns]
  simp only [parseFields, hdlen, hmlen, hylen, hdval, hmval, hyval, Option.some_bind]
  rw [if_neg (by decide), if_neg (by decide), if_neg (by decide), if_pos]
  simp only [Bool.and_eq_true, decide_eq_true_eq]
  exact ⟨⟨⟨hm1, hm2⟩, hd1⟩, hd2⟩

/-- C5: date parsing is day-first over the fixed `DD/MM/YYYY` pattern:
for every well-formed rendered date string the first two-digit field is
the day and the second the month; `"31/12/2022"` parses to 2022-12-31
and `"01/04/2015"` parses to 2015-04-01 (April 1st), not 2015-01-04
(January 4th). -/
theorem C5_day_first_parsing (d m y : Nat) (hm1 : 1 ≤ m) (hm2 : m ≤ 12) (hd1 : 1 ≤ d)
    (hd2 : d ≤ daysInMonth y m) (hy : y ≤ 9999) :
    parseDate (renderDate d m y) = some (y, m, d) ∧
    parseDate "31/12/2022" = some (2022, 12, 31) ∧
    parseDate "01/04/2015" = some (2015, 4, 1) ∧
    parseDate "04/01/2015" = some (2015, 1, 4) ∧
    parseDate "01/04/2015" ≠ some (2015, 1, 4) :=
  ⟨parseDate_renderDate d m y hm1 hm2 hd1 hd2 hy, by decide, by decide, by decide, by decide⟩

/-- C5 witness: the day-first law at the concrete dates named by the
spec. -/
theorem C5_witness :
    1 ≤ 12 ∧ 12 ≤ 12 ∧ 1 ≤ 31 ∧ 31 ≤ daysInMonth 2022 12 ∧ 2022 ≤ 9999 ∧
    parseDate (renderDate 31 12 2022) = some (2022, 12, 31) ∧
    parseDate "01/04/2015" = some (2015, 4, 1) :=
  ⟨by decide, by decide, by decide, by decide, by decide,
    (C5_day_first_parsing 31 12 2022 (by decide) (by decide) (by decide) (by decide)
      (by decide)).1,
    (C5_day_first_parsing 31 12 2022 (by decide) (by decide) (by decide) (by decide)
      (by decide)).2.2.1⟩

/-- C6: the value-repair replacement maps exactly the cells whose whole
value is `-` to the integer `0` (a cell merely containing `-` as a
substring, such as `"3-4"`, is unchanged) and maps the literal `1,678`
in the `Up to 1 hr` column to `167`; the typo fix is a point fix: a
`1,678` token in another numeric column is not rewritten (the pipeline
then fails at coercion) and a `1,678` in the Comments column survives
verbatim. -/
theorem C6_replacement_law (s : String) (hs1 : s ≠ "-") (hs2 : s ≠ "1,678") :
    repairUpTo1hr (Cell.str "-") = Cell.int 0 ∧
    repairUpTo1hr (Cell.str "1,678") = Cell.int 167 ∧
    repairUpTo1hr (Cell.str s) = Cell.str s ∧
    dashToZero (Cell.str "-") = Cell.int 0 ∧
    dashToZero (Cell.str s) = Cell.str s ∧
    dashToZero (Cell.str "3-4") = Cell.str "3-4" ∧
    dashToZero (Cell.str "1,678") = Cell.str "1,678" ∧
    cleanTable [Row.mk (Cell.str "06/04/2015") (Cell.str "Mon") (Cell.str "1")
      (Cell.str "1,678") (Cell.str "0") (Cell.str "0") (Cell.str "0") (Cell.str "0")
      (Cell.str "0") (Cell.str "0") (Cell.str "3") (Cell.str "2") (Cell.str "x")] = none ∧
    cleanTable [Row.mk (Cell.str "06/04/2015") (Cell.str "Mon") (Cell.str "1")
      (Cell.str "1") (Cell.str "0") (Cell.str "0") (Cell.str "0") (Cell.str "0")
      (Cell.str "0") (Cell.str "0") (Cell.str "3") (Cell.str "2") (Cell.str "1,678")] =
      some [Row.mk (Cell.date 2015 4 6) (Cell.str "Mon") (Cell.int 1) (Cell.int 1)
        (Cell.int 0) (Cell.int 0) (Cell.int 0) (Cell.int 0) (Cell.int 0) (Cell.int 0)
        (Cell.int 3) (Cell.int 2) (Cell.str "1,678")] := by
  refine ⟨by decide, by decide, ?_, by decide, ?_, by decide, by decide, by decide, by decide⟩
  · simp [repairUpTo1hr, hs1, hs2]
  · simp [dashToZero, hs1]

/-- C6 witness: the replacement law instantiated at the token "42". -/
theorem C6_witness :
    ("42" : String) ≠ "-" ∧ ("42" : String) ≠ "1,678" ∧
    repairUpTo1hr (Cell.str "42") = Cell.str "42" ∧
    dashToZero (Cell.str "42") = Cell.str "42" := by
  have hmain := C6_replacement_law "42" (by decide) (by decide)
  exact ⟨by decide, by decide, hmain.2.2.1, hmain.2.2.2.2.1⟩

theorem tableMapM_id_of (f : Row → Option Row) (t : Table) (h : ∀ r ∈ t, f r = some r) :
    tableMapM f t = some t := by
  induction t with
  | nil => rfl
  | cons r rs ih =>
    simp only [tableMapM, h r (List.mem_cons_self ..), Option.some_bind,
      ih (fun x hx => h x (List.mem_cons_of_mem _ hx)), Option.map_some']

theorem dashToZero_toCategorical (c : Cell) : dashToZero (toCategorical c) = toCategorical c := by
  cases c with
  | str s =>
    simp only [toCategorical]
    by_cases hmem : s ∈ dayCategories
    · simp only [if_pos hmem]
      fin_cases hmem <;> decide
    · simp [if_neg hmem, dashToZero]
  | int n => rfl
  | date y m d => rfl
  | null => rfl

theorem setNum_getNum (c : NumCol) (r : Row) : setNum c (getNum c r) r = r := by
  cases c <;> rfl

theorem dashToZero_of_ne (c : Cell) (h : c ≠ Cell.str "-") : dashToZero c = c := by
  rw [dashToZero, if_neg h]

theorem dash_comments_fix (c : Cell) :
    dashToZero (commentsNormalize (dashToZero c)) = commentsNormalize (dashToZero c) := by
  by_cases h1 : c = Cell.str "-"
  · subst h1; decide
  · rw [dashToZero_of_ne c h1]
    by_cases h2 : c = Cell.str "0"
    · subst h2; decide
    · rw [commentsNormalize_eq c h2]
      exact dashToZero_of_ne c h1

/-- A cleaned row is a fixed point of the value-repair statements: it
contains no `-` token, no `1,678` token, and its numeric columns are
already int64, so re-running the repairs is a no-op row-wise. -/
theorem cleanRow_repair_fix (r r' : Row) (hcr : cleanRow r = some r') :
    rowRun repairSteps r' = some r' := by
  obtain ⟨hdate, hday, hup, h12, h23, h34, h45, h56, h624, h24p, hsub, ⟨v, hv, htot⟩, hcm⟩ :=
    cleanRow_char _ _ hcr
  have hint : ∀ c : NumCol, ∃ n : Int, getNum c r' = Cell.int n := by
    intro c
    cases c with
    | upTo1hr => exact coerceCell_isInt _ _ hup
    | h1to2 => exact coerceCell_isInt _ _ h12
    | h2to3 => exact coerceCell_isInt _ _ h23
    | h3to4 => exact coerceCell_isInt _ _ h34
    | h4to5 => exact coerceCell_isInt _ _ h45
    | h5to6 => exact coerceCell_isInt _ _ h56
    | h6toLt24 => exact coerceCell_isInt _ _ h624
    | h24plus => exact coerceCell_isInt _ _ h24p
    | subscribers => exact coerceCell_isInt _ _ hsub
    | totalExcSub =>
      obtain ⟨k, rfl⟩ := coerceCell_isInt _ _ hv
      rcases lt_or_ge k 0 with hk | hk
      · refine ⟨0, ?_⟩
        show r'.totalExcSub = Cell.int 0
        rw [htot]
        simp [clipTotal, if_pos hk]
      · refine ⟨k, ?_⟩
        show r'.totalExcSub = Cell.int k
        rw [htot]
        simp [clipTotal, if_neg (not_lt.mpr hk)]
  have hnumfix : ∀ c : NumCol, dashToZero (getNum c r') = getNum c r' := by
    intro c
    obtain ⟨n, hn⟩ := hint c
    rw [hn]
    rfl
  have hdatefix : dashToZero r'.date = r'.date := by
    rcases hdate with ⟨s, y, m, d, -, -, hd⟩ | ⟨y, m, d, -, hd⟩ | ⟨-, hd⟩ <;> rw [hd] <;> rfl
  have hdayfix : dashToZero r'.day = r'.day := by
    rw [hday]
    exact dashToZero_toCategorical r.day
  have hcmfix : dashToZero r'.comments = r'.comments := by
    rw [hcm]
    exact dash_comments_fix _
  have e1 : rowStep Step.replaceUpTo1hr r' = some r' := by
    obtain ⟨n, hn⟩ := hint NumCol.upTo1hr
    have hn' : r'.upTo1hr = Cell.int n := hn
    simp only [rowStep]
    rw [hn', show repairUpTo1hr (Cell.int n) = Cell.int n from rfl, ← hn']
  have ecoerce : ∀ c : NumCol, rowStep (Step.coerceColumn c) r' = some r' := by
    intro c
    obtain ⟨n, hn⟩ := hint c
    simp only [rowStep, hn]
    simp only [coerceCell, Option.map_some']
    rw [← hn, setNum_getNum]
  have edash : rowStep Step.replaceDashGlobal r' = some r' := by
    simp only [rowStep]
    congr 1
    ext
    · exact hdatefix
    · exact hdayfix
    · exact hnumfix NumCol.upTo1hr
    · exact hnumfix NumCol.h1to2
    · exact hnumfix NumCol.h2to3
    · exact hnumfix NumCol.h3to4
    · exact hnumfix NumCol.h4to5
    · exact hnumfix NumCol.h5to6
    · exact hnumfix NumCol.h6toLt24
    · exact hnumfix NumCol.h24plus
    · exact hnumfix NumCol.totalExcSub
    · exact hnumfix NumCol.subscribers
    · exact hcmfix
  simp only [repairSteps, rowRun, e1, ecoerce, edash, Option.some_bind]

/-- C7: the value-repair step is idempotent: running the `'-' -> 0` and
`'1,678' -> 167` replacements followed by the numeric coercions on an
already-cleaned table returns it unchanged, because a cleaned table
holds no `-` tokens and no `1,678` tokens and its numeric columns are
already int64. -/
theorem C7_repair_idempotent (t t' : Table) (h : cleanTable t = some t') :
    repairTable t' = some t' := by
  rw [repairTable, runSteps_eq_rowRun]
  apply tableMapM_id_of
  intro r' hr'
  obtain ⟨r, -, hcr⟩ := cleanTable_rows t t' h r' hr'
  exact cleanRow_repair_fix r r' hcr

/-- C7 witness: a concrete clean followed by a no-op repair re-run. -/
theorem C7_witness :
    cleanTable [Row.mk (Cell.str "07/04/2015") (Cell.str "Tue") (Cell.str "-") (Cell.str "2")
        (Cell.str "1") (Cell.str "0") (Cell.str "0") (Cell.str "0") (Cell.str "0") (Cell.str "0")
        (Cell.str "3") (Cell.str "4") (Cell.str "0")] =
      some [Row.mk (Cell.date 2015 4 7) (Cell.str "Tue") (Cell.int 0) (Cell.int 2)
        (Cell.int 1) (Cell.int 0) (Cell.int 0) (Cell.int 0) (Cell.int 0) (Cell.int 0)
        (Cell.int 3) (Cell.int 4) Cell.null] ∧
    repairTable [Row.mk (Cell.date 2015 4 7) (Cell.str "Tue") (Cell.int 0) (Cell.int 2)
        (Cell.int 1) (Cell.int 0) (Cell.int 0) (Cell.int 0) (Cell.int 0) (Cell.int 0)
        (Cell.int 3) (Cell.int 4) Cell.null] =
      some [Row.mk (Cell.date 2015 4 7) (Cell.str "Tue") (Cell.int 0) (Cell.int 2)
        (Cell.int 1) (Cell.int 0) (Cell.int 0) (Cell.int 0) (Cell.int 0) (Cell.int 0)
        (Cell.int 3) (Cell.int 4) Cell.null] := by
  have hclean : cleanTable [Row.mk (Cell.str "07/04/2015") (Cell.str "Tue") (Cell.str "-")
      (Cell.str "2") (Cell.str "1") (Cell.str "0") (Cell.str "0") (Cell.str "0") (Cell.str "0")
      (Cell.str "0") (Cell.str "3") (Cell.str "4") (Cell.str "0")] =
      some [Row.mk (Cell.date 2015 4 7) (Cell.str "Tue") (Cell.int 0) (Cell.int 2)
        (Cell.int 1) (Cell.int 0) (Cell.int 0) (Cell.int 0) (Cell.int 0) (Cell.int 0)
        (Cell.int 3) (Cell.int 4) Cell.null] := by decide
  exact ⟨hclean, C7_repair_idempotent _ _ hclean⟩

theorem tableMapM_pure (g : Row → Row) (t : Table) :
    tableMapM (fun r => some (g r)) t = some (t.map g) := by
  induction t with
  | nil => rfl
  | cons r rs ih => simp [tableMapM, ih]

/-- C8: the weekday column becomes the fixed ordered categorical domain
{Mon, Tue, Wed, Thu, Fri, Sat, Sun} (in that order, beginning at Mon and
ending at Sun); when every input Day value is one of the seven canonical
labels, every cleaned row keeps its Day value and the column takes only
those seven values. -/
theorem C8_day_categorical (t t' : Table) (h : cleanTable t = some t')
    (hdays : ∀ r ∈ t, ∃ s ∈ dayCategories, r.day = Cell.str s) :
    dayCategories = ["Mon", "Tue", "Wed", "Thu", "Fri", "Sat", "Sun"] ∧
    dayCategories.head? = some "Mon" ∧
    dayCategories.getLast? = some "Sun" ∧
    (∀ s ∈ dayCategories, toCategorical (Cell.str s) = Cell.str s) ∧
    (∀ r' ∈ t', ∃ s ∈ dayCategories, r'.day = Cell.str s) ∧
    (∀ r ∈ t, ∃ r' ∈ t', cleanRow r = some r' ∧ r'.day = r.day) := by
  refine ⟨rfl, rfl, by decide, ?_, ?_, ?_⟩
  · intro s hs
    simp [toCategorical, hs]
  · intro r' hr'
    obtain ⟨r, hrt, hcr⟩ := cleanTable_rows t t' h r' hr'
    obtain ⟨-, hday, -, -, -, -, -, -, -, -, -, -, -⟩ := cleanRow_char _ _ hcr
    obtain ⟨s, hs, hrday⟩ := hdays r hrt
    refine ⟨s, hs, ?_⟩
    rw [hday, hrday]
    simp [toCategorical, hs]
  · intro r hrt
    have h' : tableMapM cleanRow t = some t' := by rw [← cleanTable_eq]; exact h
    obtain ⟨r', hr', hcr⟩ := tableMapM_mem_in cleanRow t t' h' r hrt
    obtain ⟨-, hday, -, -, -, -, -, -, -, -, -, -, -⟩ := cleanRow_char _ _ hcr
    obtain ⟨s, hs, hrday⟩ := hdays r hrt
    refine ⟨r', hr', hcr, ?_⟩
    rw [hday, hrday]
    simp [toCategorical, hs]

/-- C8 witness: a concrete run whose Day value `Wed` is kept. -/
theorem C8_witness :
    (∀ r ∈ [Row.mk (Cell.str "08/04/2015") (Cell.str "Wed") (Cell.str "1") (Cell.str "1")
        (Cell.str "1") (Cell.str "1") (Cell.str "1") (Cell.str "1") (Cell.str "1") (Cell.str "1")
        (Cell.str "8") (Cell.str "2") (Cell.str "0")],
      ∃ s ∈ dayCategories, r.day = Cell.str s) ∧
    dayCategories.head? = some "Mon" ∧
    dayCategories.getLast? = some "Sun" := by
  have hclean : cleanTable [Row.mk (Cell.str "08/04/2015") (Cell.str "Wed") (Cell.str "1")
      (Cell.str "1") (Cell.str "1") (Cell.str "1") (Cell.str "1") (Cell.str "1") (Cell.str "1")
      (Cell.str "1") (Cell.str "8") (Cell.str "2") (Cell.str "0")] =
      some [Row.mk (Cell.date 2015 4 8) (Cell.str "Wed") (Cell.int 1) (Cell.int 1)
        (Cell.int 1) (Cell.int 1) (Cell.int 1) (Cell.int 1) (Cell.int 1) (Cell.int 1)
        (Cell.int 8) (Cell.int 2) Cell.null] := by decide
  have hmain := C8_day_categorical _ _ hclean (by decide)
  exact ⟨by decide, hmain.2.1, hmain.2.2.1⟩

/-- C10: converting the Day column to the categorical domain maps every
value outside {Mon, Tue, Wed, Thu, Fri, Sat, Sun} to null (missing)
rather than keeping it or raising, and leaves every in-domain value
unchanged; the conversion step never fails on any table. -/
theorem C10_day_out_of_domain (s : String) (hs : s ∉ dayCategories) :
    toCategorical (Cell.str s) = Cell.null ∧
    (∀ s' ∈ dayCategories, toCategorical (Cell.str s') = Cell.str s') ∧
    (∀ t : Table, runStep Step.setDayCategorical t =
      some (t.map fun r => { r with day := toCategorical r.day })) := by
  refine ⟨by simp [toCategorical, hs], ?_, ?_⟩
  · intro s' hs'
    simp [toCategorical, hs']
  · intro t
    exact tableMapM_pure (fun r => { r with day := toCategorical r.day }) t

/-- C10 witness: the out-of-domain label "Monday" becomes null while the
canonical "Mon" is kept. -/
theorem C10_witness :
    ("Monday" : String) ∉ dayCategories ∧
    toCategorical (Cell.str "Monday") = Cell.null ∧
    toCategorical (Cell.str "Mon") = Cell.str "Mon" := by
  have hmain := C10_day_out_of_domain "Monday" (by decide)
  exact ⟨by decide, hmain.1, hmain.2.1 "Mon" (by decide)⟩

/-- C9: for each year the slice selects exactly the rows whose date lies
between January 1st and December 31st of that year inclusive (for a
valid calendar date this means the row's year equals the slice year); a
row dated December 31st of year `y` belongs to year `y`'s subset; the
slices of two different years are disjoint; and a row dated outside
2018..2022 appears in none of the five slices. -/
theorem C9_year_partition (t : Table) (r : Row) (y y' yy mm dd : Nat)
    (hm1 : 1 ≤ mm) (hm2 : mm ≤ 12) (hd1 : 1 ≤ dd) (hd2 : dd ≤ 31) :
    (r.date = Cell.date yy mm dd → (r ∈ yearSlice y t ↔ r ∈ t ∧ yy = y)) ∧
    (r.date = Cell.date y 12 31 → r ∈ t → r ∈ yearSlice y t) ∧
    (r ∈ yearSlice y t → r ∈ yearSlice y' t → y = y') ∧
    (r.date = Cell.date yy mm dd → (yy < 2018 ∨ 2022 < yy) → 2018 ≤ y → y ≤ 2022 →
      r ∉ yearSlice y t) := by
  refine ⟨?_, ?_, ?_, ?_⟩
  · intro hd
    simp only [yearSlice, List.mem_filter, hd, cellGeLower, cellLeUpper, tripleLe,
      Bool.and_eq_true, Bool.or_eq_true, decide_eq_true_eq]
    exact and_congr_right fun _ => by omega
  · intro hd hrt
    refine List.mem_filter.mpr ⟨hrt, ?_⟩
    rw [hd]
    simp only [cellGeLower, cellLeUpper, tripleLe, Bool.and_eq_true, Bool.or_eq_true,
      decide_eq_true_eq]
    norm_num
  · intro h1 h2
    have p1 := (List.mem_filter.mp h1).2
    have p2 := (List.mem_filter.mp h2).2
    cases hdc : r.date with
    | date y0 m0 d0 =>
      rw [hdc] at p1 p2
      simp only [cellGeLower, cellLeUpper, tripleLe, Bool.and_eq_true, Bool.or_eq_true,
        decide_eq_true_eq] at p1 p2
      omega
    | str s => rw [hdc] at p1; simp [cellGeLower] at p1
    | int n => rw [hdc] at p1; simp [cellGeLower] at p1
    | null => rw [hdc] at p1; simp [cellGeLower] at p1
  · intro hd hout hy1 hy2 hmem
    have p := (List.mem_filter.mp hmem).2
    rw [hd] at p
    simp only [cellGeLower, cellLeUpper, tripleLe, Bool.and_eq_true, Bool.or_eq_true,
      decide_eq_true_eq] at p
    omega

/-- C9 witness: a row dated 2020-12-31 lies in the 2020 slice and in no
other year's slice. -/
theorem C9_witness :
    (Row.mk (Cell.date 2020 12 31) (Cell.str "Thu") (Cell.int 1) (Cell.int 1) (Cell.int 1)
        (Cell.int 1) (Cell.int 1) (Cell.int 1) (Cell.int 1) (Cell.int 1) (Cell.int 8)
        (Cell.int 2) Cell.null).date = Cell.date 2020 12 31 ∧
    (Row.mk (Cell.date 2020 12 31) (Cell.str "Thu") (Cell.int 1) (Cell.int 1) (Cell.int 1)
        (Cell.int 1) (Cell.int 1) (Cell.int 1) (Cell.int 1) (Cell.int 1) (Cell.int 8)
        (Cell.int 2) Cell.null) ∈
      yearSlice 2020 [Row.mk (Cell.date 2020 12 31) (Cell.str "Thu") (Cell.int 1) (Cell.int 1)
        (Cell.int 1) (Cell.int 1) (Cell.int 1) (Cell.int 1) (Cell.int 1) (Cell.int 1)
        (Cell.int 8) (Cell.int 2) Cell.null] := by
  have hmain := C9_year_partition
    [Row.mk (Cell.date 2020 12 31) (Cell.str "Thu") (Cell.int 1) (Cell.int 1) (Cell.int 1)
      (Cell.int 1) (Cell.int 1) (Cell.int 1) (Cell.int 1) (Cell.int 1) (Cell.int 8)
      (Cell.int 2) Cell.null]
    (Row.mk (Cell.date 2020 12 31) (Cell.str "Thu") (Cell.int 1) (Cell.int 1) (Cell.int 1)
      (Cell.int 1) (Cell.int 1) (Cell.int 1) (Cell.int 1) (Cell.int 1) (Cell.int 8)
      (Cell.int 2) Cell.null)
    2020 2021 2020 12 31 (by decide) (by decide) (by decide) (by decide)
  exact ⟨rfl, hmain.2.1 rfl (by decide)⟩
